import Mathlib

/-!
Verification of `fix_background.py`, a one-off text patcher.

The script reads `src/background.js`, applies two `re.sub` passes to the
full text, writes the result back, and prints one confirmation line.

Both regex patterns are concatenations of literal segments and wildcard
segments of the shape `[^\n]+` that are always immediately followed by a
literal newline.  Such a wildcard matches deterministically: it consumes
the maximal nonempty run of non-newline characters and the terminating
newline (any shorter run would leave a non-newline character in front of
the required newline, so backtracking can never succeed).  The embedding
below therefore models a pattern as a list of tokens, each either a
literal character list or this wildcard-plus-newline unit, and models
`re.sub` (which replaces every non-overlapping occurrence, leftmost
first, scanning left to right and resuming after each replacement) as a
character-by-character scan.
-/

set_option maxRecDepth 1000000

/-- A pattern token: a literal run of characters, or the unit
`[^\n]+\n` (a nonempty run of non-newline characters followed by a
newline), which is how every wildcard occurs in the script's regexes. -/
inductive Tok where
  | lit : List Char → Tok
  | wild : Tok

/-- Try to match a token list at the start of `s`.  Returns the number of
characters consumed on success.  Literal tokens consume themselves; the
wildcard token consumes a maximal nonempty run of non-newline characters
plus the newline that terminates it. -/
def matchPat : List Tok → List Char → Option Nat
  | [], _ => some 0
  | Tok.lit p :: ps, s =>
      if List.isPrefixOf p s then
        Option.map (fun n => n + p.length) (matchPat ps (List.drop p.length s))
      else none
  | Tok.wild :: ps, s =>
      let run := List.takeWhile (fun c => c != '\n') s
      let rem := List.drop run.length s
      if run.length ≠ 0 ∧ rem.head? = some '\n' then
        Option.map (fun n => n + run.length + 1) (matchPat ps rem.tail)
      else none

/-- Fuel-driven worker for the scan of `re.sub`: at each position try the
pattern; on a match of `n + 1` characters emit the replacement and resume
after the match, otherwise keep the current character and move one
position right.  The fuel only makes the recursion structural; it is
always called with fuel at least the length of the string. -/
def subFuel (pat : List Tok) (repl : List Char) : Nat → List Char → List Char
  | _, [] => []
  | 0, _ :: _ => []
  | f + 1, c :: rest =>
      match matchPat pat (c :: rest) with
      | some (n + 1) => repl ++ subFuel pat repl f (List.drop n rest)
      | _ => c :: subFuel pat repl f rest

/-- The embedding of `re.sub(pat, repl, s)` for the script's patterns:
replace every non-overlapping occurrence, leftmost first. -/
def reSubAll (pat : List Tok) (repl : List Char) (s : List Char) : List Char :=
  subFuel pat repl s.length s

/-- `true` iff the pattern matches at some position of `s`. -/
def hasMatch (pat : List Tok) : List Char → Bool
  | [] => (matchPat pat []).isSome
  | c :: rest => (matchPat pat (c :: rest)).isSome || hasMatch pat rest

/-- `true` iff the pattern matches at no position lying strictly inside
`u` when the text continues with `t` (positions inside `t` are not
constrained). -/
def noMatchB (pat : List Tok) : List Char → List Char → Bool
  | [], _ => true
  | c :: u, t => (matchPat pat (c :: (u ++ t))).isNone && noMatchB pat u t

/-- A character list is an admissible wildcard filler: nonempty and free
of newlines. -/
def wildOk (w : List Char) : Prop :=
  w ≠ [] ∧ w.all (fun c => c != '\n') = true

instance wildOk_decidable (w : List Char) : Decidable (wildOk w) :=
  inferInstanceAs (Decidable (w ≠ [] ∧ w.all (fun c => c != '\n') = true))

/-- The anchor kept by the removal pass: the alarm-name line and the
closing brace line of the CONFIG object literal. -/
def alarmAnchor : List Char :=
  "ALARM_NAME: 'gradescope_auto_sync'\n\x7d;".toList

/-- First literal of the removal pattern: the alarm anchor, a blank line,
and the fixed head of the first diagnostic line. -/
def lit0 : List Char := alarmAnchor ++ ('\n' :: '\n' :: [])

/-- Literal head of the first removed diagnostic line. -/
def litRocket : List Char := "console.log('🚀 Enhanced background script".toList

/-- Literal head of the second removed diagnostic line. -/
def litPhone : List Char := "console.log(`📱 Extension ID".toList

/-- Literal head of the third removed diagnostic line. -/
def litKey : List Char := "console.log(`🔑 Chrome Client ID".toList

/-- Literal head of the fourth removed diagnostic line. -/
def litGlobe : List Char := "console.log(`🌐 Web Client ID".toList

/-- The diagnostic-block part of the removal pattern: four lines, each a
fixed literal head followed by a wildcard run up to the end of line. -/
def diagBlockPat : List Tok :=
  [Tok.lit litRocket, Tok.wild,
   Tok.lit litPhone, Tok.wild,
   Tok.lit litKey, Tok.wild,
   Tok.lit litGlobe, Tok.wild]

/-- The whole removal pattern of the first `re.sub` pass. -/
def removalPat : List Tok := Tok.lit lit0 :: diagBlockPat

/-- Replacement of the removal pass: the template is `\1\n`, and group 1
always captures exactly the (fully literal) alarm anchor. -/
def removalRepl : List Char := alarmAnchor ++ ('\n' :: [])

/-- The (fully literal) anchor of the insertion pass: the Firefox-loaded
log line followed by the closing brace of the conditional block. -/
def firefoxAnchor : List Char :=
  "console.log('✅ Firefox: Modules loaded via manifest.json');\n\x7d".toList

/-- The insertion pattern of the second `re.sub` pass. -/
def insertionPat : List Tok := [Tok.lit firefoxAnchor]

/-- The four diagnostic lines written by the insertion pass. -/
def insertedLines : List Char :=
  ("console.log('🚀 Enhanced background script with dual authentication loaded');\n"
   ++ "console.log(`📱 Extension ID: $\x7bbrowser.runtime.id\x7d`);\n"
   ++ "console.log(`🔑 Chrome Client ID: $\x7bCONFIG.CHROME_EXTENSION_CLIENTS[browser.runtime.id] || 'not configured'\x7d`);\n"
   ++ "console.log(`🌐 Web Client ID: $\x7bCONFIG.WEB_CLIENT_ID\x7d`);\n").toList

/-- What the insertion pass adds after the anchor it keeps: a blank line,
a comment line, and the four diagnostic lines. -/
def insTail : List Char :=
  "\n\n// Log configuration AFTER polyfill is loaded\n".toList ++ insertedLines

/-- Replacement of the insertion pass: the template is `\1` followed by
the new block, and group 1 always captures exactly the anchor. -/
def insertionRepl : List Char := firefoxAnchor ++ insTail

/-- First `re.sub` pass of the script (Step A, removal). -/
def step_a (s : List Char) : List Char := reSubAll removalPat removalRepl s

/-- Second `re.sub` pass of the script (Step B, insertion). -/
def step_b (s : List Char) : List Char := reSubAll insertionPat insertionRepl s

/-- The full in-memory transformation: Step A then Step B. -/
def fix_background (s : List Char) : List Char := step_b (step_a s)

/-- The confirmation line printed at the end of the script. -/
def successMessage : List Char :=
  "✅ Fixed background.js - console logs moved after polyfill import".toList

/-- Observable outcome of one run of the script: the file on disk after
the run, the lines printed to standard output, and whether the run was
aborted by an I/O failure. -/
structure RunOutcome where
  disk : Option (List Char)
  stdoutLines : List (List Char)
  ioFailed : Bool

/-- Shallow embedding of the script's effectful shell as explicit state
passing.  `file` is the stored content of the target path (`none` when
the file does not exist or cannot be read); `writable` says whether
opening the file for writing succeeds.  Opening for reading fails on a
missing or unreadable file before anything is written; opening for
writing on a read-only file fails before the truncating open changes the
stored content; on success the transformed text is stored and the single
confirmation line is printed. -/
def runOnDisk (file : Option (List Char)) (writable : Bool) : RunOutcome :=
  match file with
  | none => ⟨none, [], true⟩
  | some content =>
      if writable then ⟨some (fix_background content), [successMessage], false⟩
      else ⟨some content, [], true⟩

/-- One matched occurrence of the removal pattern: the alarm anchor, a
blank line, and four diagnostic lines with the given wildcard fillers. -/
def remInst (w1 w2 w3 w4 : List Char) : List Char :=
  lit0 ++ (litRocket ++ (w1 ++ '\n' ::
    (litPhone ++ (w2 ++ '\n' ::
      (litKey ++ (w3 ++ '\n' ::
        (litGlobe ++ (w4 ++ '\n' :: []))))))))

theorem subFuel_nil (pat : List Tok) (repl : List Char) (f : Nat) :
    subFuel pat repl f [] = [] := by
  cases f <;> rfl

theorem subFuel_congr (pat : List Tok) (repl : List Char) :
    ∀ f₁ f₂ s, s.length ≤ f₁ → s.length ≤ f₂ →
      subFuel pat repl f₁ s = subFuel pat repl f₂ s := by
  intro f₁
  induction f₁ with
  | zero =>
    intro f₂ s h1 _
    have hs : s = [] := List.length_eq_zero.mp (Nat.le_zero.mp h1)
    subst hs
    simp [subFuel_nil]
  | succ f ih =>
    intro f₂ s h1 h2
    cases s with
    | nil => simp [subFuel_nil]
    | cons c rest =>
      cases f₂ with
      | zero =>
        exact absurd h2 (by simp [List.length_cons])
      | succ g =>
        simp only [List.length_cons, Nat.add_le_add_iff_right] at h1 h2
        cases hm : matchPat pat (c :: rest) with
        | none =>
          simp only [subFuel, hm]
          exact congrArg _ (ih g rest h1 h2)
        | some n =>
          cases n with
          | zero =>
            simp only [subFuel, hm]
            exact congrArg _ (ih g rest h1 h2)
          | succ m =>
            simp only [subFuel, hm]
            refine congrArg _ (ih g (List.drop m rest) ?_ ?_) <;>
              simp only [List.length_drop] <;> omega

theorem reSubAll_nil (pat : List Tok) (repl : List Char) :
    reSubAll pat repl [] = [] := rfl

theorem reSubAll_cons_of_none {pat : List Tok} {repl : List Char} {c : Char}
    {rest : List Char} (h : matchPat pat (c :: rest) = none) :
    reSubAll pat repl (c :: rest) = c :: reSubAll pat repl rest := by
  simp [reSubAll, subFuel, h]

theorem reSubAll_cons_of_match {pat : List Tok} {repl : List Char} {c : Char}
    {rest : List Char} {n : Nat} (h : matchPat pat (c :: rest) = some (n + 1)) :
    reSubAll pat repl (c :: rest) = repl ++ reSubAll pat repl (List.drop n rest) := by
  have e : subFuel pat repl rest.length (List.drop n rest)
      = subFuel pat repl (List.drop n rest).length (List.drop n rest) := by
    refine subFuel_congr pat repl _ _ _ ?_ (Nat.le_refl _)
    simp only [List.length_drop]
    omega
  simp [reSubAll, subFuel, h, e]

theorem isPrefixOf_append_self (p s : List Char) :
    List.isPrefixOf p (p ++ s) = true := by
  induction p with
  | nil => simp [List.isPrefixOf]
  | cons c p ih => simp [List.isPrefixOf, ih]

theorem takeWhile_line_append (w s : List Char)
    (h : w.all (fun c => c != '\n') = true) :
    List.takeWhile (fun c => c != '\n') (w ++ '\n' :: s) = w := by
  induction w with
  | nil => simp
  | cons c w ih =>
    simp only [List.all_cons, Bool.and_eq_true] at h
    simp [List.takeWhile_cons, h.1, ih h.2]

theorem matchPat_lit (p : List Char) (ps : List Tok) (s : List Char) :
    matchPat (Tok.lit p :: ps) (p ++ s)
      = Option.map (fun n => n + p.length) (matchPat ps s) := by
  simp [matchPat, isPrefixOf_append_self, List.drop_left]

theorem matchPat_wild (w : List Char) (ps : List Tok) (s : List Char)
    (hw : wildOk w) :
    matchPat (Tok.wild :: ps) (w ++ '\n' :: s)
      = Option.map (fun n => n + w.length + 1) (matchPat ps s) := by
  obtain ⟨hne, hall⟩ := hw
  have hrun : List.takeWhile (fun c => c != '\n') (w ++ '\n' :: s) = w :=
    takeWhile_line_append w s hall
  have hlen : w.length ≠ 0 := by
    simpa [List.length_eq_zero] using hne
  simp [matchPat, hrun, List.drop_left, hlen]

theorem matchPat_lit_self (p t : List Char) :
    matchPat [Tok.lit p] (p ++ t) = some p.length := by
  rw [matchPat_lit]
  simp [matchPat]

theorem matchPat_firefox (t : List Char) :
    matchPat insertionPat (firefoxAnchor ++ t) = some firefoxAnchor.length :=
  matchPat_lit_self firefoxAnchor t

theorem reSubAll_head {pat : List Tok} {repl : List Char} {inst rest : List Char}
    (hm : matchPat pat (inst ++ rest) = some inst.length) (hne : inst ≠ []) :
    reSubAll pat repl (inst ++ rest) = repl ++ reSubAll pat repl rest := by
  cases inst with
  | nil => exact absurd rfl hne
  | cons c inst' =>
    have hm' : matchPat pat (c :: (inst' ++ rest)) = some (inst'.length + 1) := by
      simpa using hm
    rw [List.cons_append, reSubAll_cons_of_match hm', List.drop_left]

theorem reSubAll_skip {pat : List Tok} {repl : List Char} :
    ∀ {u t : List Char}, noMatchB pat u t = true →
      reSubAll pat repl (u ++ t) = u ++ reSubAll pat repl t := by
  intro u
  induction u with
  | nil => intro t _; simp
  | cons c u ih =>
    intro t h
    simp only [noMatchB, Bool.and_eq_true, Option.isNone_iff_eq_none] at h
    rw [List.cons_append, reSubAll_cons_of_none h.1, ih h.2, List.cons_append]

theorem reSubAll_id {pat : List Tok} {repl : List Char} :
    ∀ {s : List Char}, hasMatch pat s = false → reSubAll pat repl s = s := by
  intro s
  induction s with
  | nil => intro _; rfl
  | cons c rest ih =>
    intro h
    simp only [hasMatch, Bool.or_eq_false_iff] at h
    cases hm : matchPat pat (c :: rest) with
    | some n => simp [hm] at h
    | none => rw [reSubAll_cons_of_none hm, ih h.2]

theorem matchPat_remInst (w1 w2 w3 w4 rest : List Char)
    (h1 : wildOk w1) (h2 : wildOk w2) (h3 : wildOk w3) (h4 : wildOk w4) :
    matchPat removalPat (remInst w1 w2 w3 w4 ++ rest)
      = some (remInst w1 w2 w3 w4).length := by
  have e : remInst w1 w2 w3 w4 ++ rest
      = lit0 ++ (litRocket ++ (w1 ++ '\n' ::
          (litPhone ++ (w2 ++ '\n' ::
            (litKey ++ (w3 ++ '\n' ::
              (litGlobe ++ (w4 ++ '\n' :: rest)))))))) := by
    simp [remInst, List.append_assoc]
  rw [e]
  show matchPat (Tok.lit lit0 :: Tok.lit litRocket :: Tok.wild :: Tok.lit litPhone
      :: Tok.wild :: Tok.lit litKey :: Tok.wild :: Tok.lit litGlobe :: Tok.wild :: []) _ = _
  rw [matchPat_lit, matchPat_lit, matchPat_wild w1 _ _ h1, matchPat_lit,
      matchPat_wild w2 _ _ h2, matchPat_lit, matchPat_wild w3 _ _ h3, matchPat_lit,
      matchPat_wild w4 _ _ h4]
  simp only [matchPat, Option.map_some', Option.some.injEq]
  simp only [remInst, List.length_append, List.length_cons, List.length_nil]
  omega

theorem remInst_ne_nil (w1 w2 w3 w4 : List Char) : remInst w1 w2 w3 w4 ≠ [] := by
  intro h
  have hl := congrArg List.length h
  simp only [remInst, lit0, List.length_append, List.length_cons, List.length_nil] at hl
  omega

theorem firefoxAnchor_ne_nil : firefoxAnchor ≠ [] := by decide

/-- C5: each substitution pass is the identity when its pattern is
absent: if the removal pattern matches nowhere in the text, Step A
returns its input unchanged, and if the insertion anchor matches
nowhere, Step B returns its input unchanged. -/
theorem spec_c5_identity_when_absent (s : List Char) :
    (hasMatch removalPat s = false → step_a s = s) ∧
    (hasMatch insertionPat s = false → step_b s = s) :=
  ⟨fun h => reSubAll_id h, fun h => reSubAll_id h⟩

theorem spec_c5_witness :
    step_a "no anchors here\n".toList = "no anchors here\n".toList ∧
    step_b "no anchors here\n".toList = "no anchors here\n".toList :=
  ⟨(spec_c5_identity_when_absent _).1 (by decide),
   (spec_c5_identity_when_absent _).2 (by decide)⟩

/-- C4: on a readable, writable file whose content contains neither the
removal pattern nor the insertion anchor, the run succeeds, stores the
content back byte-identically unchanged, and prints the same single
confirmation line as a transforming run. -/
theorem spec_c4_noop_success (s : List Char)
    (h1 : hasMatch removalPat s = false) (h2 : hasMatch insertionPat s = false) :
    runOnDisk (some s) true = ⟨some s, [successMessage], false⟩ := by
  have ha : step_a s = s := reSubAll_id h1
  have hb : step_b s = s := reSubAll_id h2
  simp [runOnDisk, fix_background, ha, hb]

theorem spec_c4_witness :
    runOnDisk (some "plain text, no anchors\n".toList) true
      = ⟨some "plain text, no anchors\n".toList, [successMessage], false⟩ :=
  spec_c4_noop_success _ (by decide) (by decide)

/-- C6: when the target file does not exist or cannot be read, the run
fails with an I/O-class error before any write: nothing is printed and
the stored state is unchanged (still no readable file). -/
theorem spec_c6_missing_file (writable : Bool) :
    runOnDisk none writable = ⟨none, [], true⟩ := rfl

/-- C7: when the target file is readable but not writable, the read and
the pure in-memory transformation succeed, the truncating open for
writing fails with an I/O-class error, and the stored content is left
exactly as it was. -/
theorem spec_c7_readonly_file (content : List Char) :
    runOnDisk (some content) false = ⟨some content, [], true⟩ := rfl

/-- C8: every run that does not end in an I/O failure prints exactly the
one fixed confirmation line, independently of whether any transformation
occurred, and nothing else. -/
theorem spec_c8_single_confirmation (file : Option (List Char)) (writable : Bool)
    (h : (runOnDisk file writable).ioFailed = false) :
    (runOnDisk file writable).stdoutLines = [successMessage] := by
  cases file with
  | none => simp [runOnDisk] at h
  | some content =>
    cases writable with
    | true => simp [runOnDisk]
    | false => simp [runOnDisk] at h

theorem spec_c8_witness :
    (runOnDisk (some []) true).stdoutLines = [successMessage] :=
  spec_c8_single_confirmation (some []) true rfl

/-- C9: the block Step B inserts after the Firefox-loaded anchor is
equivalent in content to the block Step A removes: the replacement of
the insertion pass is the anchor itself followed by a blank line, a
comment line and four diagnostic lines, and those four lines are an
instance of exactly the diagnostic-block pattern (the same four
`console.log` statement heads for the script banner, the extension ID,
the Chrome client ID lookup and the web client ID) whose occurrences
Step A deletes after the alarm-name anchor. -/
theorem spec_c9_equivalent_block :
    insertionRepl = firefoxAnchor ++ insTail ∧
    insTail = "\n\n// Log configuration AFTER polyfill is loaded\n".toList ++ insertedLines ∧
    removalPat = Tok.lit lit0 :: diagBlockPat ∧
    matchPat diagBlockPat insertedLines = some insertedLines.length :=
  ⟨rfl, rfl, rfl, by decide⟩

/-- C1 counterexample: on a text made of two consecutive occurrences of
the removal pattern, Step A does not leave the second occurrence
unchanged (the output is not the kept anchor followed by the intact
second occurrence, as replace-first semantics would produce). -/
theorem spec_c1_counterexample :
    step_a (remInst " a".toList " b".toList " c".toList " d".toList
        ++ remInst " e".toList " f".toList " g".toList " h".toList)
      ≠ removalRepl ++ remInst " e".toList " f".toList " g".toList " h".toList := by
  decide

/-- C1 amended: the Step A substitution is a global replace, not
replace-first — on a text made of two consecutive occurrences of the
removal pattern (arbitrary wildcard fillers), both occurrences have
their diagnostic blocks deleted, each leaving only the kept anchor line
and a newline. -/
theorem spec_c1_global_replace (w1 w2 w3 w4 w5 w6 w7 w8 : List Char)
    (h1 : wildOk w1) (h2 : wildOk w2) (h3 : wildOk w3) (h4 : wildOk w4)
    (h5 : wildOk w5) (h6 : wildOk w6) (h7 : wildOk w7) (h8 : wildOk w8) :
    step_a (remInst w1 w2 w3 w4 ++ remInst w5 w6 w7 w8)
      = removalRepl ++ removalRepl := by
  unfold step_a
  rw [reSubAll_head (matchPat_remInst w1 w2 w3 w4 _ h1 h2 h3 h4)
      (remInst_ne_nil w1 w2 w3 w4)]
  have hsecond : reSubAll removalPat removalRepl (remInst w5 w6 w7 w8) = removalRepl := by
    calc reSubAll removalPat removalRepl (remInst w5 w6 w7 w8)
        = reSubAll removalPat removalRepl (remInst w5 w6 w7 w8 ++ []) := by
          rw [List.append_nil]
      _ = removalRepl ++ reSubAll removalPat removalRepl [] :=
          reSubAll_head (matchPat_remInst w5 w6 w7 w8 [] h5 h6 h7 h8)
            (remInst_ne_nil w5 w6 w7 w8)
      _ = removalRepl := by rw [reSubAll_nil, List.append_nil]
  rw [hsecond]

theorem spec_c1_witness :
    step_a (remInst " p".toList " q".toList " r".toList " s".toList
        ++ remInst " t".toList " u".toList " v".toList " w".toList)
      = removalRepl ++ removalRepl :=
  spec_c1_global_replace _ _ _ _ _ _ _ _ (by decide) (by decide) (by decide)
    (by decide) (by decide) (by decide) (by decide) (by decide)

/-- C2 counterexample: the transformation is not idempotent.  On a text
consisting of just the Firefox-loaded anchor, the first run appends the
diagnostic block after the anchor, but the anchor still occurs in that
output, so a second run appends the block once more and the output
changes again. -/
theorem spec_c2_counterexample :
    fix_background (fix_background firefoxAnchor) ≠ fix_background firefoxAnchor := by
  decide

/-- C2 amended: a second run changes nothing when neither the removal
pattern nor the insertion anchor occurs anywhere in the first run's
output; in general this fails, because the insertion anchor always
survives in a patched output and the block is inserted again. -/
theorem spec_c2_second_run_noop (s : List Char)
    (h1 : hasMatch removalPat (fix_background s) = false)
    (h2 : hasMatch insertionPat (fix_background s) = false) :
    fix_background (fix_background s) = fix_background s := by
  have ha : step_a (fix_background s) = fix_background s := reSubAll_id h1
  show step_b (step_a (fix_background s)) = fix_background s
  rw [ha]
  exact reSubAll_id h2

theorem spec_c2_witness :
    fix_background (fix_background "plain\n".toList) = fix_background "plain\n".toList :=
  spec_c2_second_run_noop _ (by decide) (by decide)

/-- C3: round-trip scenario.  On a text that is some prefix `u`, then
the alarm-name anchor immediately followed (after a blank line) by the
four diagnostic lines, then a middle segment `v`, then the
Firefox-loaded anchor, then a tail `t` — where neither pattern occurs
anywhere else (the side conditions) — the transformation deletes the
diagnostic block after the alarm-name anchor, keeping only the anchor
and a newline, and appends the equivalent four-line diagnostic block
(extension ID, Chrome client ID lookup, web client ID) immediately
after the Firefox-loaded anchor. -/
theorem spec_c3_round_trip (u v t w1 w2 w3 w4 : List Char)
    (hw1 : wildOk w1) (hw2 : wildOk w2) (hw3 : wildOk w3) (hw4 : wildOk w4)
    (hu : noMatchB removalPat u
        (remInst w1 w2 w3 w4 ++ (v ++ (firefoxAnchor ++ t))) = true)
    (hrest : hasMatch removalPat (v ++ (firefoxAnchor ++ t)) = false)
    (hmid : noMatchB insertionPat (u ++ (removalRepl ++ v)) (firefoxAnchor ++ t) = true)
    (ht : hasMatch insertionPat t = false) :
    fix_background (u ++ (remInst w1 w2 w3 w4 ++ (v ++ (firefoxAnchor ++ t))))
      = u ++ (removalRepl ++ (v ++ (firefoxAnchor ++ (insTail ++ t)))) := by
  have hstepA : step_a (u ++ (remInst w1 w2 w3 w4 ++ (v ++ (firefoxAnchor ++ t))))
      = u ++ (removalRepl ++ (v ++ (firefoxAnchor ++ t))) := by
    unfold step_a
    rw [reSubAll_skip hu,
        reSubAll_head (matchPat_remInst w1 w2 w3 w4 _ hw1 hw2 hw3 hw4)
          (remInst_ne_nil w1 w2 w3 w4),
        reSubAll_id hrest]
  show step_b _ = _
  rw [hstepA]
  unfold step_b
  have e : u ++ (removalRepl ++ (v ++ (firefoxAnchor ++ t)))
      = (u ++ (removalRepl ++ v)) ++ (firefoxAnchor ++ t) := by
    simp [List.append_assoc]
  rw [e, reSubAll_skip hmid,
      reSubAll_head (matchPat_firefox t) firefoxAnchor_ne_nil,
      reSubAll_id ht]
  simp [insertionRepl, List.append_assoc]

theorem spec_c3_witness :
    fix_background ("head\n".toList ++
        (remInst " one".toList " two".toList " three".toList " four".toList ++
          ("\nmid\n".toList ++ (firefoxAnchor ++ "\ntail\n".toList))))
      = "head\n".toList ++
          (removalRepl ++ ("\nmid\n".toList ++
            (firefoxAnchor ++ (insTail ++ "\ntail\n".toList)))) :=
  spec_c3_round_trip _ _ _ _ _ _ _ (by decide) (by decide) (by decide) (by decide)
    (by decide) (by decide) (by decide) (by decide)

/-- C10: the Step B substitution is applied globally.  On a text with
two occurrences of the Firefox-loaded anchor (and no other occurrence
of it, the side conditions), a copy of the diagnostic block is inserted
after each of the two occurrences, not only after the first. -/
theorem spec_c10_insert_after_every_anchor (u v t : List Char)
    (hu : noMatchB insertionPat u (firefoxAnchor ++ (v ++ (firefoxAnchor ++ t))) = true)
    (hv : noMatchB insertionPat v (firefoxAnchor ++ t) = true)
    (ht : hasMatch insertionPat t = false) :
    step_b (u ++ (firefoxAnchor ++ (v ++ (firefoxAnchor ++ t))))
      = u ++ (firefoxAnchor ++ (insTail ++ (v ++ (firefoxAnchor ++ (insTail ++ t))))) := by
  unfold step_b
  rw [reSubAll_skip hu,
      reSubAll_head (matchPat_firefox _) firefoxAnchor_ne_nil,
      reSubAll_skip hv,
      reSubAll_head (matchPat_firefox t) firefoxAnchor_ne_nil,
      reSubAll_id ht]
  simp [insertionRepl, List.append_assoc]

theorem spec_c10_witness :
    step_b ("aa\n".toList ++ (firefoxAnchor ++ ("\nbb\n".toList ++
        (firefoxAnchor ++ "\ncc\n".toList))))
      = "aa\n".toList ++ (firefoxAnchor ++ (insTail ++ ("\nbb\n".toList ++
          (firefoxAnchor ++ (insTail ++ "\ncc\n".toList))))) :=
  spec_c10_insert_after_every_anchor _ _ _ (by decide) (by decide) (by decide)
